import Mathlib

/-!
Verification of the Ledger & Currency Conversion core of the Trip expense
bot.  The Python source (src/Trip/bot/{commands,database,currency}.py) is
shallowly embedded: dict-based records become structures, floats become
rationals, fallible operations (file writes, divisions that can raise
ZeroDivisionError, HTTP fetches) become explicit parameters or Option
results.  Base currency is CNY/RMB; party A is Sunil (home GBP), party B
is Shirin (home AED).
-/

namespace Trip

/-- Attachment descriptor stored in an expense's `documents` list
(database.py: document_info dicts). -/
structure Document where
  filename : String
  storage_path : String
  size : Nat
  uploaded_at : String
deriving Repr, DecidableEq

/-- Expense record as built by `add_expense` in commands.py lines 190-207.
`documents := none` models a dict with no 'documents' key (possible for
records imported from older data), `some l` a present list. -/
structure Expense where
  id : Nat
  city : String
  activity : String
  category : String
  date : String
  original_amount : ℚ
  original_currency : String
  total_rmb : ℚ
  payer : String
  sunil_rmb : ℚ
  shirin_rmb : ℚ
  sunil_gbp : ℚ
  shirin_aed : ℚ
  notes : String
  documents : Option (List Document)
  created_at : String
deriving Repr, DecidableEq

/-- The rate dictionary held by `CurrencyConverter.rates` (currency.py).
Only the four keys GBP/AED/USD/EUR are ever read; `none` models an absent
key, so `rates.get('GBP', 0.11)` becomes `(·.GBP.getD (11/100))`. -/
structure Rates where
  GBP : Option ℚ
  AED : Option ℚ
  USD : Option ℚ
  EUR : Option ℚ
deriving Repr, DecidableEq

/-- `rates.get('GBP', 0.11)` -/
def Rates.getGBP (r : Rates) : ℚ := r.GBP.getD (11/100)

/-- `rates.get('AED', 0.52)` -/
def Rates.getAED (r : Rates) : ℚ := r.AED.getD (52/100)

/-- `rates.get('USD', 0.14)` -/
def Rates.getUSD (r : Rates) : ℚ := r.USD.getD (14/100)

/-- `rates.get('EUR', 0.13)` -/
def Rates.getEUR (r : Rates) : ℚ := r.EUR.getD (13/100)

/-- Conversion of the entered amount to RMB in the add path
(commands.py lines 149-169).  Each non-RMB branch guards against a zero
held rate and substitutes a hardcoded inverse-rate constant instead of
dividing by zero.  Unknown currencies fall through to RMB. -/
def toRMB (currency : String) (amount : ℚ) (rates : Rates) : ℚ :=
  if currency = "RMB" then amount
  else if currency = "GBP" then
    amount * (if rates.getGBP ≠ 0 then 1 / rates.getGBP else 909/100)
  else if currency = "AED" then
    amount * (if rates.getAED ≠ 0 then 1 / rates.getAED else 192/100)
  else if currency = "USD" then
    amount * (if rates.getUSD ≠ 0 then 1 / rates.getUSD else 714/100)
  else if currency = "EUR" then
    amount * (if rates.getEUR ≠ 0 then 1 / rates.getEUR else 769/100)
  else amount

/-- Per-party share computation in the add path (commands.py lines
172-187): returns (sunil_rmb, shirin_rmb, sunil_gbp, shirin_aed). -/
def addShares (payer : String) (amount_rmb : ℚ) (rates : Rates) :
    ℚ × ℚ × ℚ × ℚ :=
  if payer = "Couple" then
    let sunil_rmb := amount_rmb / 2
    let shirin_rmb := amount_rmb / 2
    (sunil_rmb, shirin_rmb, sunil_rmb * rates.getGBP, shirin_rmb * rates.getAED)
  else if payer = "Sunil" then
    (amount_rmb, 0, amount_rmb * rates.getGBP, 0)
  else
    (0, amount_rmb, 0, amount_rmb * rates.getAED)

/-- The expense dict built by the add command (commands.py lines 190-207),
given the already-validated inputs, the freshly assigned id and the
creation timestamp. -/
def addExpenseRecord (eid : Nat) (city activity category date : String)
    (amount : ℚ) (currency payer notes : String) (createdAt : String)
    (rates : Rates) : Expense :=
  let amount_rmb := toRMB currency amount rates
  let s := addShares payer amount_rmb rates
  { id := eid
    city := city
    activity := activity
    category := category
    date := date
    original_amount := amount
    original_currency := currency
    total_rmb := amount_rmb
    payer := payer
    sunil_rmb := s.1
    shirin_rmb := s.2.1
    sunil_gbp := s.2.2.1
    shirin_aed := s.2.2.2
    notes := notes
    documents := some []
    created_at := createdAt }

/-! ## Ledger store (database.py) -/

/-- The in-memory dict `self.data` of `ExpenseDatabase`. -/
structure DBData where
  expenses : List Expense
  next_id : Nat
  created_at : String
  last_updated : String
deriving Repr, DecidableEq

/-- A database handle: the in-memory data plus the content of the durable
file (`none` until a write has succeeded).  File-system effects are made
explicit: each saving operation takes the current wall-clock string and a
flag saying whether the write succeeds. -/
structure DBState where
  data : DBData
  disk : Option DBData
deriving Repr, DecidableEq

/-- `save_data` (database.py lines 40-47): stamps `last_updated` on the
in-memory data, then attempts the file write; a failing write is caught,
printed and swallowed, leaving the file at its previous content while the
in-memory stamp sticks. -/
def save_data (s : DBState) (now : String) (writeOk : Bool) : DBState :=
  let d := { s.data with last_updated := now }
  { data := d, disk := if writeOk then some d else s.disk }

/-- `add_expense` (database.py lines 55-63): appends the record, saves,
and returns True; the only exceptions that could make it return False
would have to escape `save_data`, which swallows everything. -/
def add_expense (s : DBState) (e : Expense) (now : String) (writeOk : Bool) :
    DBState × Bool :=
  let s1 := { s with data := { s.data with expenses := s.data.expenses ++ [e] } }
  (save_data s1 now writeOk, true)

/-- Python truthiness test `if f and ...` for an optional-string filter:
`None` and the empty string are falsy and disable the filter. -/
def filterActive : Option String → Bool
  | none => false
  | some f => f ≠ ""

/-- One pass of the filter body of `get_expenses` (database.py lines
82-98): whether a record survives the city/category/date-range filters. -/
def passesFilters (city category start_d end_d : Option String)
    (e : Expense) : Bool :=
  (!filterActive city || decide (e.city = city.getD "")) &&
  (!filterActive category || decide (e.category = category.getD "")) &&
  (!filterActive start_d || !decide (e.date < start_d.getD "")) &&
  (!filterActive end_d || !decide (e.date > end_d.getD ""))

/-- Stable insertion into a date-descending list: the new element goes
after every element whose date is ≥ its own, matching the stability
guarantee of Python's `list.sort(key=..., reverse=True)`. -/
def insertDateDesc (e : Expense) : List Expense → List Expense
  | [] => [e]
  | x :: xs => if x.date < e.date then e :: x :: xs else x :: insertDateDesc e xs

/-- `filtered_expenses.sort(key=lambda x: x['date'], reverse=True)`:
stable sort by date, newest first. -/
def sortDateDesc (l : List Expense) : List Expense :=
  l.foldl (fun acc e => insertDateDesc e acc) []

/-- `get_expenses` (database.py lines 72-102): filter then stable
date-descending sort. -/
def get_expenses (s : DBState) (city category start_d end_d : Option String) :
    List Expense :=
  sortDateDesc (s.data.expenses.filter (passesFilters city category start_d end_d))

/-- The loop of `delete_document` (database.py lines 234-246) over the
expense list: at the first expense with the matching id AND a 'documents'
key, drop every document whose filename matches and succeed; an
id-matching expense without the key lets the loop continue; an exhausted
loop fails. -/
def deleteDocFromList (eid : Nat) (fn : String) :
    List Expense → Option (List Expense)
  | [] => none
  | e :: rest =>
    if e.id = eid then
      match e.documents with
      | some docs =>
        let kept := docs.filter (fun d => !(d.filename == fn))
        some ({ e with documents := some kept } :: rest)
      | none => (deleteDocFromList eid fn rest).map (e :: ·)
    else (deleteDocFromList eid fn rest).map (e :: ·)

/-- `delete_document` (database.py lines 234-246): returns True exactly
when the loop found an expense to rewrite, saving in that case. -/
def delete_document (s : DBState) (eid : Nat) (fn : String) (now : String)
    (writeOk : Bool) : DBState × Bool :=
  match deleteDocFromList eid fn s.data.expenses with
  | some l =>
      (save_data { s with data := { s.data with expenses := l } } now writeOk, true)
  | none => (s, false)

/-- The export envelope of `export_data` (database.py lines 298-304). -/
structure ExportBlob where
  data : DBData
  export_timestamp : String
  export_version : String
deriving Repr, DecidableEq

/-- `export_data`: snapshot of the whole store plus an export stamp. -/
def export_data (s : DBState) (ts : String) : ExportBlob :=
  { data := s.data, export_timestamp := ts, export_version := "1.0" }

/-- `import_data` (database.py lines 306-316) applied to an export
envelope (whose 'data' key is always present): replaces the in-memory
data wholesale and saves. -/
def import_data (s : DBState) (blob : ExportBlob) (now : String)
    (writeOk : Bool) : DBState × Bool :=
  (save_data { s with data := blob.data } now writeOk, true)

/-- `clear_all_data` (database.py lines 318-331): resets to the empty
initial state with the counter back at 1, then saves. -/
def clear_all_data (s : DBState) (now : String) (writeOk : Bool) :
    DBState × Bool :=
  let d : DBData :=
    { expenses := [], next_id := 1, created_at := now, last_updated := now }
  (save_data { s with data := d } now writeOk, true)

/-! ## Rate cache (currency.py) -/

/-- `CurrencyConverter`'s mutable state: the rate dict and the
`last_updated` stamp (`none` models Python `None`). -/
structure CurState where
  rates : Rates
  last_updated : Option String
deriving Repr, DecidableEq

/-- The payload of one remote fetch attempt: `ok` is an HTTP 200 with a
rates mapping (absent keys modelled as `none`); `fail` covers a non-200
status, a network exception, or any other exception — all of which the
source catches and treats alike. -/
inductive FetchResult where
  | ok (GBP AED USD EUR : Option ℚ)
  | fail
deriving Repr, DecidableEq

/-- The rate-dict rebuild on a successful response (currency.py lines
72-77 and 104-109): each key comes from the response, falling back to the
current dict, falling back to the hardcoded default. -/
def applyResponse (c : Rates) (gbp aed usd eur : Option ℚ) : Rates :=
  { GBP := some (gbp.getD (c.GBP.getD (11/100)))
    AED := some (aed.getD (c.AED.getD (52/100)))
    USD := some (usd.getD (c.USD.getD (14/100)))
    EUR := some (eur.getD (c.EUR.getD (13/100))) }

/-- `fetch_live_rates` (currency.py lines 54-118): try the primary
source; on its failure try the backup; on success of either, swap in the
rebuilt dict and stamp `last_updated`; if both fail, return False with
the state untouched. -/
def fetch_live_rates (c : CurState) (primary backup : FetchResult)
    (now : String) : CurState × Bool :=
  match primary with
  | .ok g a u e =>
      ({ rates := applyResponse c.rates g a u e, last_updated := some now }, true)
  | .fail =>
    match backup with
    | .ok g a u e =>
        ({ rates := applyResponse c.rates g a u e, last_updated := some now }, true)
    | .fail => (c, false)

/-- `update_rates` (currency.py lines 120-127): fetch only when stale
(the staleness test against the wall clock is passed in as a boolean). -/
def update_rates (c : CurState) (stale : Bool) (primary backup : FetchResult)
    (now : String) : CurState × Bool :=
  if stale then fetch_live_rates c primary backup now else (c, true)

/-- `get_rates` (currency.py lines 142-145): refresh-if-stale, then
return whatever rate dict is then held. -/
def get_rates (c : CurState) (stale : Bool) (primary backup : FetchResult)
    (now : String) : Rates :=
  (update_rates c stale primary backup now).1.rates

/-! ## Edit path (commands.py edit_expense) -/

/-- The optional arguments of the edit command (None = not provided). -/
structure EditArgs where
  activity : Option String
  category : Option String
  city : Option String
  payer : Option String
  date : Option String
  notes : Option String
  amount : Option ℚ
  currency : Option String
deriving Repr, DecidableEq

/-- Python `currency or expense['original_currency']` (commands.py line
1034): None and the empty string both fall back. -/
def orElseStr (c : Option String) (dflt : String) : String :=
  match c with
  | none => dflt
  | some s => if s = "" then dflt else s

/-- Conversion of the edited amount to RMB (commands.py lines 1038-1051).
Unlike the add path, the non-RMB branches divide by the held rate with no
zero guard, so a zero rate raises ZeroDivisionError — modelled as
`none`. -/
def editToRMB (currency : String) (amount : ℚ) (rates : Rates) : Option ℚ :=
  if currency = "RMB" then some amount
  else if currency = "GBP" then
    if rates.getGBP = 0 then none else some (amount / rates.getGBP)
  else if currency = "AED" then
    if rates.getAED = 0 then none else some (amount / rates.getAED)
  else if currency = "USD" then
    if rates.getUSD = 0 then none else some (amount / rates.getUSD)
  else if currency = "EUR" then
    if rates.getEUR = 0 then none else some (amount / rates.getEUR)
  else some amount

/-- Share split in the edit path (commands.py lines 1054-1062):
(sunil_rmb, shirin_rmb) from the effective payer. -/
def editSplit (payer : String) (amount_rmb : ℚ) : ℚ × ℚ :=
  if payer = "Couple" then (amount_rmb / 2, amount_rmb / 2)
  else if payer = "Sunil" then (amount_rmb, 0)
  else (0, amount_rmb)

/-- The edit command's record transformation (commands.py lines
1016-1087 together with `update_expense`, database.py lines 186-201):
build the updates dict from the provided fields, and only when an amount
is provided recompute the conversion and the four share fields; then
overwrite the record key-by-key.  `none` models the ZeroDivisionError
escape of the unguarded division. -/
def editExpense (e : Expense) (a : EditArgs) (rates : Rates) :
    Option Expense :=
  let base := { e with
    activity := a.activity.getD e.activity
    category := a.category.getD e.category
    city := a.city.getD e.city
    payer := a.payer.getD e.payer
    date := a.date.getD e.date
    notes := a.notes.getD e.notes }
  match a.amount with
  | none => some base
  | some amt =>
    let cur := orElseStr a.currency e.original_currency
    match editToRMB cur amt rates with
    | none => none
    | some amount_rmb =>
      let p := a.payer.getD e.payer
      let sp := editSplit p amount_rmb
      some { base with
        original_amount := amt
        original_currency := cur
        total_rmb := amount_rmb
        sunil_rmb := sp.1
        shirin_rmb := sp.2
        sunil_gbp := sp.1 * rates.getGBP
        shirin_aed := sp.2 * rates.getAED }

/-! ## Fixtures and helper lemmas -/

/-- The hardcoded default rate dict of `set_default_rates`
(currency.py lines 45-50). -/
def defaultRates : Rates :=
  { GBP := some (11/100), AED := some (52/100), USD := some (14/100),
    EUR := some (13/100) }

/-- Default rates with the GBP entry replaced by the invalid value 0. -/
def ratesZeroGBP : Rates :=
  { GBP := some 0, AED := some (52/100), USD := some (14/100),
    EUR := some (13/100) }

/-- Default rates with the GBP entry replaced by 0.5, the rate of the
spec's concrete conversion scenario. -/
def ratesHalfGBP : Rates :=
  { GBP := some (1/2), AED := some (52/100), USD := some (14/100),
    EUR := some (13/100) }

/-- A sample fully-formed record (a 50 RMB lunch paid by Sunil). -/
def eSample : Expense :=
  { id := 1, city := "Beijing", activity := "Lunch", category := "Food",
    date := "2025-01-01", original_amount := 50, original_currency := "RMB",
    total_rmb := 50, payer := "Sunil", sunil_rmb := 50, shirin_rmb := 0,
    sunil_gbp := 11/2, shirin_aed := 0, notes := "", documents := some [],
    created_at := "t0" }

/-- The empty initial data of a fresh database. -/
def emptyData : DBData :=
  { expenses := [], next_id := 1, created_at := "t0", last_updated := "t0" }

/-- A fresh database whose empty state has been written to disk. -/
def sEmpty : DBState := { data := emptyData, disk := some emptyData }

lemma addShares_sum (payer : String) (rmb : ℚ) (rates : Rates) :
    (addShares payer rmb rates).1 + (addShares payer rmb rates).2.1 = rmb := by
  simp only [addShares]
  split_ifs <;> simp

/-! ## Claims -/

/-- C1: every record built by the add path from a positive amount and one
of the three payer values (Couple/Sunil/Shirin) has its two per-party RMB
shares summing to the record's RMB total (exactly, in the rational
model of float arithmetic). -/
theorem addExpenseRecord_shares_sum_total (eid : Nat)
    (city activity category date : String) (amount : ℚ)
    (currency payer notes createdAt : String) (rates : Rates)
    (hpos : 0 < amount)
    (hpayer : payer = "Couple" ∨ payer = "Sunil" ∨ payer = "Shirin") :
    (addExpenseRecord eid city activity category date amount currency payer
        notes createdAt rates).sunil_rmb +
      (addExpenseRecord eid city activity category date amount currency payer
        notes createdAt rates).shirin_rmb =
      (addExpenseRecord eid city activity category date amount currency payer
        notes createdAt rates).total_rmb := by
  simp only [addExpenseRecord]
  exact addShares_sum payer _ rates

/-- Witness for C1 at a concrete input. -/
theorem addExpenseRecord_shares_sum_total_witness :
    (0:ℚ) < 100 ∧
    (addExpenseRecord 1 "Beijing" "Lunch" "Food" "2025-01-01" 100 "RMB"
        "Couple" "" "t0" defaultRates).sunil_rmb +
      (addExpenseRecord 1 "Beijing" "Lunch" "Food" "2025-01-01" 100 "RMB"
        "Couple" "" "t0" defaultRates).shirin_rmb =
      (addExpenseRecord 1 "Beijing" "Lunch" "Food" "2025-01-01" 100 "RMB"
        "Couple" "" "t0" defaultRates).total_rmb :=
  ⟨by norm_num,
   addExpenseRecord_shares_sum_total 1 "Beijing" "Lunch" "Food" "2025-01-01"
     100 "RMB" "Couple" "" "t0" defaultRates (by norm_num) (Or.inl rfl)⟩

/-- C7: entering 100 GBP while rates[GBP] = 0.5 converts by division:
total_rmb = 200; with the joint payer each party's RMB share is 100. -/
theorem add_conversion_divides_by_rate :
    (addExpenseRecord 1 "Beijing" "Lunch" "Food" "2025-01-01" 100 "GBP"
        "Couple" "" "t0" ratesHalfGBP).total_rmb = 200 ∧
    (addExpenseRecord 1 "Beijing" "Lunch" "Food" "2025-01-01" 100 "GBP"
        "Couple" "" "t0" ratesHalfGBP).sunil_rmb = 100 ∧
    (addExpenseRecord 1 "Beijing" "Lunch" "Food" "2025-01-01" 100 "GBP"
        "Couple" "" "t0" ratesHalfGBP).shirin_rmb = 100 := by
  have h1 : ("GBP" : String) ≠ "RMB" := by decide
  refine ⟨?_, ?_, ?_⟩ <;>
    norm_num [addExpenseRecord, toRMB, addShares, Rates.getGBP, ratesHalfGBP, h1]

/-- C4: with a held GBP rate of exactly zero, the add path substitutes
the fallback constant 9.09 (100 GBP → 909 RMB) while the edit path's
unguarded division raises ZeroDivisionError, modelled as `none`. -/
theorem edit_path_zero_rate_divides_by_zero :
    editToRMB "GBP" 100 ratesZeroGBP = none ∧
    toRMB "GBP" 100 ratesZeroGBP = 909 := by
  have h1 : ("GBP" : String) ≠ "RMB" := by decide
  refine ⟨?_, ?_⟩ <;>
    norm_num [editToRMB, toRMB, Rates.getGBP, ratesZeroGBP, h1]

/-- C10: an empty-string city or category filter behaves exactly like an
absent filter (Python truthiness makes `""` falsy), rather than
selecting records with empty city/category. -/
theorem get_expenses_empty_string_filter (s : DBState)
    (c k sd ed : Option String) :
    get_expenses s (some "") k sd ed = get_expenses s none k sd ed ∧
    get_expenses s c (some "") sd ed = get_expenses s c none sd ed :=
  ⟨rfl, rfl⟩

/-- C2 counterexample: on a failing durable write, `add_expense` still
returns True, the record stays inserted in memory, and the disk keeps the
previous snapshot — no error is surfaced and nothing is rolled back. -/
theorem add_expense_write_failure_reports_success :
    (add_expense sEmpty eSample "t1" false).2 = true ∧
    (add_expense sEmpty eSample "t1" false).1.data.expenses = [eSample] ∧
    (add_expense sEmpty eSample "t1" false).1.disk = some emptyData :=
  ⟨rfl, rfl, rfl⟩

/-- C2 amended: for every store state, when the durable write fails
`add_expense` still returns True, keeps the appended record in memory
(no rollback), and leaves the disk at the last successful write;
`save_data` swallows the error, so no PersistenceError reaches the
caller. -/
theorem add_expense_write_failure_semantics (s : DBState) (e : Expense)
    (now : String) :
    (add_expense s e now false).2 = true ∧
    (add_expense s e now false).1.data.expenses = s.data.expenses ++ [e] ∧
    (add_expense s e now false).1.disk = s.disk :=
  ⟨rfl, rfl, rfl⟩

/-- C5: when both the primary and the backup remote sources fail,
`get_rates` returns the previously held rate mapping unchanged (and the
whole cache state is untouched); the model is a total function, matching
the source's catch-all handlers that let no exception escape. -/
theorem get_rates_both_sources_fail (c : CurState) (stale : Bool)
    (now : String) :
    get_rates c stale FetchResult.fail FetchResult.fail now = c.rates ∧
    (update_rates c stale FetchResult.fail FetchResult.fail now).1 = c := by
  cases stale <;> simp [get_rates, update_rates, fetch_live_rates]

/-- C8: export, then clear, then import of the exported snapshot restores
the same expense records in the same order and the same next_id. -/
theorem export_clear_import_roundtrip (s : DBState) (ts now1 now2 : String)
    (w1 w2 : Bool) :
    (import_data (clear_all_data s now1 w1).1 (export_data s ts) now2 w2).1.data.expenses
        = s.data.expenses ∧
    (import_data (clear_all_data s now1 w1).1 (export_data s ts) now2 w2).1.data.next_id
        = s.data.next_id :=
  ⟨rfl, rfl⟩

/-! ## Sorting lemmas for the listing query -/

/-- Date-descending order between records. -/
def dateGe (a b : Expense) : Prop := b.date ≤ a.date

lemma mem_insertDateDesc (x e : Expense) :
    ∀ l : List Expense, x ∈ insertDateDesc e l ↔ x = e ∨ x ∈ l
  | [] => by simp [insertDateDesc]
  | y :: ys => by
    simp only [insertDateDesc]
    split
    · simp [List.mem_cons]
    · simp only [List.mem_cons, mem_insertDateDesc x e ys]
      tauto

lemma pairwise_insertDateDesc (e : Expense) :
    ∀ l : List Expense, l.Pairwise dateGe → (insertDateDesc e l).Pairwise dateGe
  | [], _ => by simp [insertDateDesc, dateGe]
  | y :: ys, h => by
    rcases List.pairwise_cons.mp h with ⟨hy, hys⟩
    simp only [insertDateDesc]
    split
    · rename_i hlt
      refine List.pairwise_cons.mpr ⟨?_, h⟩
      intro b hb
      rcases List.mem_cons.mp hb with rfl | hb
      · exact le_of_lt hlt
      · exact le_trans (hy b hb) (le_of_lt hlt)
    · rename_i hnlt
      refine List.pairwise_cons.mpr ⟨?_, pairwise_insertDateDesc e ys hys⟩
      intro b hb
      rcases (mem_insertDateDesc b e ys).mp hb with rfl | hb
      · exact le_of_not_lt hnlt
      · exact hy b hb

lemma filter_insertDateDesc (e : Expense) (d : String) :
    ∀ l : List Expense, l.Pairwise dateGe →
      (insertDateDesc e l).filter (fun x => x.date == d) =
        l.filter (fun x => x.date == d) ++
          (if e.date == d then [e] else [])
  | [], _ => by
    simp only [insertDateDesc, List.filter]
    cases hed : (e.date == d) <;> simp
  | y :: ys, h => by
    rcases List.pairwise_cons.mp h with ⟨hy, hys⟩
    simp only [insertDateDesc]
    split
    · rename_i hlt
      by_cases hed : e.date = d
      · have hnil : (y :: ys).filter (fun x => x.date == d) = [] := by
          refine List.filter_eq_nil_iff.mpr ?_
          intro a ha
          rcases List.mem_cons.mp ha with rfl | ha
          · simp only [beq_iff_eq]
            exact fun hc => absurd (hed ▸ hc : a.date = e.date)
              (ne_of_lt hlt)
          · simp only [beq_iff_eq]
            intro hc
            have h1 : a.date ≤ y.date := hy a ha
            have h2 : y.date < e.date := hlt
            rw [hc] at h1
            rw [hed] at h2
            exact absurd (lt_of_le_of_lt h1 h2) (lt_irrefl _)
        rw [List.filter_cons_of_pos (by simpa using hed), hnil]
        simp [hed]
      · rw [List.filter_cons_of_neg (by simpa using hed)]
        simp [hed]
    · rename_i hnlt
      have ih := filter_insertDateDesc e d ys hys
      by_cases hyd : y.date = d
      · rw [List.filter_cons_of_pos (by simpa using hyd),
          List.filter_cons_of_pos (by simpa using hyd), ih]
        simp
      · rw [List.filter_cons_of_neg (by simpa using hyd),
          List.filter_cons_of_neg (by simpa using hyd), ih]

lemma pairwise_foldl_insert :
    ∀ (l acc : List Expense), acc.Pairwise dateGe →
      (l.foldl (fun a e => insertDateDesc e a) acc).Pairwise dateGe
  | [], _, h => h
  | e :: rest, acc, h =>
    pairwise_foldl_insert rest (insertDateDesc e acc)
      (pairwise_insertDateDesc e acc h)

lemma filter_foldl_insert (d : String) :
    ∀ (l acc : List Expense), acc.Pairwise dateGe →
      (l.foldl (fun a e => insertDateDesc e a) acc).filter
          (fun x => x.date == d) =
        acc.filter (fun x => x.date == d) ++
          l.filter (fun x => x.date == d)
  | [], acc, _ => by simp
  | e :: rest, acc, h => by
    have ih := filter_foldl_insert d rest (insertDateDesc e acc)
      (pairwise_insertDateDesc e acc h)
    show (rest.foldl (fun a e => insertDateDesc e a)
        (insertDateDesc e acc)).filter (fun x => x.date == d) = _
    rw [ih, filter_insertDateDesc e d acc h]
    by_cases hed : e.date = d
    · rw [List.filter_cons_of_pos (by simpa using hed)]
      simp [hed]
    · rw [List.filter_cons_of_neg (by simpa using hed)]
      simp [hed]

lemma sortDateDesc_pairwise (l : List Expense) :
    (sortDateDesc l).Pairwise dateGe :=
  pairwise_foldl_insert l [] List.Pairwise.nil

lemma sortDateDesc_filter (l : List Expense) (d : String) :
    (sortDateDesc l).filter (fun x => x.date == d) =
      l.filter (fun x => x.date == d) := by
  simpa using filter_foldl_insert d l [] List.Pairwise.nil

lemma mem_foldl_insert :
    ∀ (l acc : List Expense) (x : Expense),
      x ∈ l.foldl (fun a e => insertDateDesc e a) acc ↔ x ∈ acc ∨ x ∈ l
  | [], acc, x => by simp
  | e :: rest, acc, x => by
    have ih := mem_foldl_insert rest (insertDateDesc e acc) x
    show x ∈ rest.foldl (fun a e => insertDateDesc e a)
        (insertDateDesc e acc) ↔ _
    rw [ih, mem_insertDateDesc x e acc]
    simp only [List.mem_cons]
    tauto

lemma sortDateDesc_const_date (l : List Expense) (D : String)
    (h : ∀ x ∈ l, x.date = D) : sortDateDesc l = l := by
  have hmem : ∀ x ∈ sortDateDesc l, (x.date == D) = true := by
    intro x hx
    rcases (mem_foldl_insert l [] x).mp hx with hx0 | hxl
    · cases hx0
    · simpa using h x hxl
  have h1 : (sortDateDesc l).filter (fun x => x.date == D) = sortDateDesc l :=
    List.filter_eq_self.mpr hmem
  have h2 : l.filter (fun x => x.date == D) = l :=
    List.filter_eq_self.mpr (fun a ha => by simpa using h a ha)
  rw [← h1, sortDateDesc_filter, h2]

lemma passes_point_date (D : String) (hD : D ≠ "") (e : Expense) :
    passesFilters none none (some D) (some D) e = (e.date == D) := by
  simp only [passesFilters, filterActive, Option.getD_some, Option.getD_none]
  by_cases h : e.date = D
  · simp [h, hD, lt_irrefl]
  · rcases lt_or_gt_of_ne h with hlt | hgt
    · simp [h, hD, hlt]
    · simp [h, hD, hgt, not_lt_of_gt hgt]

/-- In-memory data holding the single sample record. -/
def oneData : DBData :=
  { expenses := [eSample], next_id := 2, created_at := "t0",
    last_updated := "t0" }

/-- A one-record database used as concrete witness input. -/
def sOne : DBState := { data := oneData, disk := none }

/-- C6: listing with date_from = date_to = D returns exactly the records
whose date equals D in their stored order (both bounds inclusive,
compared as strings); moreover every listing result is sorted by date
descending, and the stable sort makes the tie-break deterministic: for
each date value, the records carrying it appear in their original
insertion order (filtering the result by a date equals filtering the
input). -/
theorem get_expenses_point_date_and_sorted :
    (∀ (s : DBState) (D : String), D ≠ "" →
        get_expenses s none none (some D) (some D) =
          s.data.expenses.filter (fun e => e.date == D)) ∧
    (∀ (s : DBState) (c k sd ed : Option String),
        (get_expenses s c k sd ed).Pairwise dateGe) ∧
    (∀ (s : DBState) (c k sd ed : Option String) (d : String),
        (get_expenses s c k sd ed).filter (fun e => e.date == d) =
          (s.data.expenses.filter (passesFilters c k sd ed)).filter
            (fun e => e.date == d)) := by
  refine ⟨?_, ?_, ?_⟩
  · intro s D hD
    unfold get_expenses
    have hfe : s.data.expenses.filter (passesFilters none none (some D) (some D))
        = s.data.expenses.filter (fun e => e.date == D) :=
      List.filter_congr (fun e _ => passes_point_date D hD e)
    rw [hfe]
    exact sortDateDesc_const_date _ D
      (fun x hx => by simpa using (List.mem_filter.mp hx).2)
  · intro s c k sd ed
    exact sortDateDesc_pairwise _
  · intro s c k sd ed d
    exact sortDateDesc_filter _ d

/-- Witness for C6 at a concrete database and date. -/
theorem get_expenses_point_date_witness :
    get_expenses sOne none none (some "2025-01-01") (some "2025-01-01") =
      sOne.data.expenses.filter (fun e => e.date == "2025-01-01") :=
  get_expenses_point_date_and_sorted.1 sOne "2025-01-01" (by decide)

lemma editSplit_sum (p : String) (x : ℚ) :
    (editSplit p x).1 + (editSplit p x).2 = x := by
  simp only [editSplit]
  split_ifs <;> simp

/-- Edit arguments carrying only a new payer. -/
def argsPayerOnly : EditArgs :=
  { activity := none, category := none, city := none, payer := some "Shirin",
    date := none, notes := none, amount := none, currency := none }

/-- Edit arguments carrying only a new amount of 80 (currency kept). -/
def argsAmount80 : EditArgs :=
  { activity := none, category := none, city := none, payer := none,
    date := none, notes := none, amount := some 80, currency := none }

/-- C3 counterexample: a payer-only edit of the sample record (wholly
paid by Sunil, 50 RMB) switches the payer to Shirin but leaves the
shares at sunil_rmb = 50, shirin_rmb = 0 — the derived fields are not
recomputed, contradicting the claim that a payer-only update recomputes
them. -/
theorem edit_payer_only_does_not_recompute :
    (editExpense eSample argsPayerOnly defaultRates).map Expense.payer
        = some "Shirin" ∧
    (editExpense eSample argsPayerOnly defaultRates).map Expense.total_rmb
        = some 50 ∧
    (editExpense eSample argsPayerOnly defaultRates).map Expense.sunil_rmb
        = some 50 ∧
    (editExpense eSample argsPayerOnly defaultRates).map Expense.shirin_rmb
        = some 0 :=
  ⟨rfl, rfl, rfl, rfl⟩

/-- C3 amended: only provided fields are overwritten, but the four
derived share fields are recomputed only when an amount is among the
updates.  Without an amount — in particular for a payer-only update —
the edit changes just the provided plain fields and keeps every derived
field (and the stored original amount/currency) unchanged.  With an
amount whose conversion succeeds, total and all four shares are
recomputed together from the rate snapshot and the effective payer. -/
theorem edit_recompute_shares_only_with_amount (e : Expense) (a : EditArgs)
    (r : Rates) :
    (a.amount = none →
      editExpense e a r = some { e with
        activity := a.activity.getD e.activity
        category := a.category.getD e.category
        city := a.city.getD e.city
        payer := a.payer.getD e.payer
        date := a.date.getD e.date
        notes := a.notes.getD e.notes }) ∧
    (∀ amt rmb, a.amount = some amt →
      editToRMB (orElseStr a.currency e.original_currency) amt r = some rmb →
      ∃ e2, editExpense e a r = some e2 ∧
        e2.total_rmb = rmb ∧
        e2.sunil_rmb + e2.shirin_rmb = rmb ∧
        (a.payer.getD e.payer = "Couple" →
          e2.sunil_rmb = rmb / 2 ∧ e2.shirin_rmb = rmb / 2) ∧
        (a.payer.getD e.payer = "Sunil" →
          e2.sunil_rmb = rmb ∧ e2.shirin_rmb = 0) ∧
        e2.sunil_gbp = e2.sunil_rmb * r.getGBP ∧
        e2.shirin_aed = e2.shirin_rmb * r.getAED) := by
  constructor
  · intro h
    simp [editExpense, h]
  · intro amt rmb ha hc
    have hns : ¬ ("Sunil" : String) = "Couple" := by decide
    simp only [editExpense, ha, hc]
    refine ⟨_, rfl, rfl, editSplit_sum _ _, ?_, ?_, rfl, rfl⟩
    · intro hp
      simp [editSplit, hp]
    · intro hp
      simp [editSplit, hp, hns]

/-- Witness for C3's amended theorem: editing only the amount of the
sample record recomputes the shares for its Sunil payer. -/
theorem edit_recompute_shares_only_with_amount_witness :
    ∃ e2, editExpense eSample argsAmount80 defaultRates = some e2 ∧
      e2.total_rmb = 80 ∧
      e2.sunil_rmb + e2.shirin_rmb = 80 ∧
      (argsAmount80.payer.getD eSample.payer = "Couple" →
        e2.sunil_rmb = 80 / 2 ∧ e2.shirin_rmb = 80 / 2) ∧
      (argsAmount80.payer.getD eSample.payer = "Sunil" →
        e2.sunil_rmb = 80 ∧ e2.shirin_rmb = 0) ∧
      e2.sunil_gbp = e2.sunil_rmb * defaultRates.getGBP ∧
      e2.shirin_aed = e2.shirin_rmb * defaultRates.getAED :=
  (edit_recompute_shares_only_with_amount eSample argsAmount80
    defaultRates).2 80 80 rfl rfl

/-- A sample attachment descriptor. -/
def docA : Document :=
  { filename := "a.png", storage_path := "data/docs/a.png", size := 1024,
    uploaded_at := "t0" }

/-- The sample record with id 7 carrying the single attachment. -/
def eWithDoc : Expense := { eSample with id := 7, documents := some [docA] }

/-- In-memory data holding only the attachment-carrying record. -/
def docData : DBData :=
  { expenses := [eWithDoc], next_id := 8, created_at := "t0",
    last_updated := "t0" }

/-- Database whose only record is the attachment-carrying one. -/
def sDoc : DBState := { data := docData, disk := none }

/-- C9 counterexample: deleting filename "b.png" from the expense whose
only document is "a.png" removes nothing, yet `delete_document` returns
True — the claim requires False when no matching document was removed. -/
theorem delete_document_true_without_removal :
    (delete_document sDoc 7 "b.png" "t1" true).2 = true ∧
    (delete_document sDoc 7 "b.png" "t1" true).1.data.expenses.map
        Expense.documents = [some [docA]] :=
  ⟨rfl, rfl⟩

/-- C9 amended: `delete_document` removes ALL entries matching the
filename (not only the first) from the first id-matching expense that
has a documents field, leaves non-matching entries in place, and returns
True exactly when an expense with the id and a documents field exists —
even when no entry matched. -/
theorem delete_document_semantics (eid : Nat) (fn : String) :
    (∀ l : List Expense, (deleteDocFromList eid fn l).isSome ↔
        ∃ e ∈ l, e.id = eid ∧ e.documents.isSome) ∧
    (∀ (e : Expense) (docs : List Document) (rest : List Expense),
        e.id = eid → e.documents = some docs →
        deleteDocFromList eid fn (e :: rest) =
          some ({ e with documents := some (docs.filter (fun d => !(d.filename == fn))) } :: rest)) ∧
    (∀ (s : DBState) (now : String) (w : Bool),
        (delete_document s eid fn now w).2 =
          (deleteDocFromList eid fn s.data.expenses).isSome) := by
  refine ⟨?_, ?_, ?_⟩
  · intro l
    induction l with
    | nil => simp [deleteDocFromList]
    | cons e rest ih =>
      simp only [deleteDocFromList]
      by_cases hid : e.id = eid
      · rw [if_pos hid]
        cases hdoc : e.documents with
        | some docs => simp [hid, hdoc]
        | none => simp [hid, hdoc, ih]
      · rw [if_neg hid]
        simp [hid, ih]
  · intro e docs rest hid hdoc
    simp [deleteDocFromList, hid, hdoc]
  · intro s now w
    cases h : deleteDocFromList eid fn s.data.expenses <;>
      simp [delete_document, h]

/-- Witness for C9's amended theorem at the concrete one-document
database. -/
theorem delete_document_semantics_witness :
    deleteDocFromList 7 "b.png" (eWithDoc :: []) =
      some ({ eWithDoc with documents := some ([docA].filter (fun d => !(d.filename == "b.png"))) } :: []) :=
  (delete_document_semantics 7 "b.png").2.1 eWithDoc [docA] [] rfl rfl

end Trip
